import Mathlib

/-!
Shallow embedding of the `websters-shivaji` email gateway
(`src/app/email/emailServiceWorkshop.js`) and the logo-carousel distribution
helpers (`shuffleArray` / `distributeLogos`).

JavaScript effects are made explicit:
* `process.env` reads become an `Env` record of `Option String` values
  (`none` = variable unset).
* The module-level mutable cache (`cachedTransporter`, `transporterCreatedAt`)
  becomes a `CacheState` value threaded through the functions.
* `Date.now()` becomes a `now : Nat` parameter (milliseconds).
* `nodemailer.createTestAccount()` becomes an oracle
  `acct : Except JsError Account` (it may reject).
* `transporter.sendMail` becomes an oracle `DeliveryOutcome` recording what the
  underlying transport would do and how many milliseconds it takes to settle;
  the `Promise.race` with the 30 s timer is `raceDelivery`.
* A thrown JS exception is `Except.error (e : JsError)`; `try/catch` is a
  `match` on the `Except` value.
* `Math.random()` draws become oracle functions `Nat → Nat` supplying the
  integer result of each `Math.floor(Math.random() * bound)` expression.
* Transporter instances carry a fresh identity `id` so that "same cached
  instance" is expressible.
-/

namespace Websters

/-- JS runtime error: `message` plus the optional `code` property nodemailer
attaches to transport errors (`undefined` = `none`). -/
structure JsError where
  message : String
  code : Option String := none
deriving DecidableEq, Repr

/-- Credentials of a provisioned ethereal.email test account
(`testAccount.user` / `testAccount.pass`). -/
structure Account where
  user : String
  pass : String
deriving DecidableEq, Repr

/-- The environment variables read by `emailServiceWorkshop.js`
(`none` models an unset variable). -/
structure Env where
  EMAIL_USER : Option String := none
  EMAIL_PASSWORD : Option String := none
  EMAIL_HOST : Option String := none
  EMAIL_PORT : Option String := none
  EMAIL_SECURE : Option String := none
deriving DecidableEq, Repr

/-- JS falsiness of a possibly-undefined string: `undefined`/`null` and the
empty string are falsy (`!x` in the source). -/
def jsFalsy : Option String → Bool
  | none => true
  | some s => s == ""

/-- JS `x || d` on a possibly-undefined string `x` with string default `d`. -/
def jsOr (x : Option String) (d : String) : String :=
  match x with
  | none => d
  | some s => if s == "" then d else s

/-- JS template interpolation of a possibly-undefined value:
`undefined` prints as the string "undefined". -/
def jsTemplateStr : Option String → String
  | none => "undefined"
  | some s => s

/-- Leading base-10 digit run of a character list, `none` when it is empty
(the NaN case of `parseInt`). -/
def parseDigits (l : List Char) : Option Nat :=
  let ds := l.takeWhile Char.isDigit
  if ds.isEmpty then none
  else some (ds.foldl (fun acc c => acc * 10 + (c.toNat - '0'.toNat)) 0)

/-- JS `parseInt(s, 10)`: skip leading whitespace, optional sign, then the
longest digit prefix; `none` models NaN. -/
def jsParseInt (s : String) : Option Int :=
  match s.data.dropWhile Char.isWhitespace with
  | '-' :: rest => (parseDigits rest).map (fun n => -(n : Int))
  | '+' :: rest => (parseDigits rest).map (fun n => (n : Int))
  | l => (parseDigits l).map (fun n => (n : Int))

/-- `const TRANSPORTER_TTL = 30 * 60 * 1000` (30 minutes, in ms). -/
def TRANSPORTER_TTL : Nat := 30 * 60 * 1000

/-- `const EMAIL_TIMEOUT = 30000` (30 seconds, in ms). -/
def EMAIL_TIMEOUT : Nat := 30000

/-- A nodemailer transporter as configured by `createTransporter`: the
`createTransport` options, plus a fresh `id` standing for object identity.
Options the source leaves out of a given configuration are `none`. -/
structure Transporter where
  id : Nat
  host : String
  port : Option Int
  secure : Bool
  authUser : String
  authPass : String
  pool : Option Bool := none
  maxConnections : Option Nat := none
  maxMessages : Option Nat := none
  connectionTimeout : Option Nat := none
  socketTimeout : Option Nat := none
deriving DecidableEq, Repr

/-- The module-level mutable cache: `cachedTransporter` (initially `null`)
and `transporterCreatedAt` (initially `0`). -/
structure CacheState where
  cachedTransporter : Option Transporter := none
  transporterCreatedAt : Nat := 0
deriving DecidableEq, Repr

/-- The initial module state: `cachedTransporter = null`,
`transporterCreatedAt = 0`. -/
def initialCacheState : CacheState := {}

/-- The fallback-mode test of `createTransporter`:
`!user || !password || user === "YOUR_EMAIL_HERE" || password === "YOUR_APP_PASSWORD_HERE"`. -/
def credsInvalid (env : Env) : Bool :=
  jsFalsy env.EMAIL_USER || jsFalsy env.EMAIL_PASSWORD ||
    env.EMAIL_USER == some "YOUR_EMAIL_HERE" ||
    env.EMAIL_PASSWORD == some "YOUR_APP_PASSWORD_HERE"

/-- The ethereal.email test transporter built in fallback mode:
host `smtp.ethereal.email`, port 587, `secure: false`, auth from the
provisioned test account; no pool or timeout options. -/
def testTransporter (fid : Nat) (a : Account) : Transporter :=
  { id := fid
    host := "smtp.ethereal.email"
    port := some 587
    secure := false
    authUser := a.user
    authPass := a.pass }

/-- The production transporter: `EMAIL_HOST || 'smtp.gmail.com'`,
`parseInt(EMAIL_PORT || '587', 10)`, `secure: EMAIL_SECURE === 'true'`,
connection pool of 5 connections / 100 messages, 10 s connection timeout,
20 s socket timeout. -/
def prodTransporter (fid : Nat) (env : Env) : Transporter :=
  { id := fid
    host := jsOr env.EMAIL_HOST "smtp.gmail.com"
    port := jsParseInt (jsOr env.EMAIL_PORT "587")
    secure := env.EMAIL_SECURE == some "true"
    authUser := env.EMAIL_USER.getD ""
    authPass := env.EMAIL_PASSWORD.getD ""
    pool := some true
    maxConnections := some 5
    maxMessages := some 100
    connectionTimeout := some 10000
    socketTimeout := some 20000 }

/-- The cache-miss path of `createTransporter`: pick test or production mode,
build the transporter, store it with the current timestamp. The returned
`Bool` records whether a construction side effect happened. A failed
`createTestAccount` call rethrows (`Except.error`) and leaves the cache
untouched. -/
def buildTransporter (env : Env) (acct : Except JsError Account) (now : Nat)
    (fid : Nat) (st : CacheState) :
    Except JsError Transporter × CacheState × Bool :=
  if credsInvalid env then
    match acct with
    | Except.error e => (Except.error e, st, false)
    | Except.ok a =>
        let t := testTransporter fid a
        (Except.ok t,
          { cachedTransporter := some t, transporterCreatedAt := now }, true)
  else
    let t := prodTransporter fid env
    (Except.ok t,
      { cachedTransporter := some t, transporterCreatedAt := now }, true)

/-- `createTransporter`: return the cached transporter while
`now - transporterCreatedAt < TRANSPORTER_TTL`, otherwise build (and cache) a
new one. The `Bool` is `true` exactly when a new transporter was constructed. -/
def createTransporter (env : Env) (acct : Except JsError Account) (now : Nat)
    (fid : Nat) (st : CacheState) :
    Except JsError Transporter × CacheState × Bool :=
  match st.cachedTransporter with
  | some t =>
      if now - st.transporterCreatedAt < TRANSPORTER_TTL then
        (Except.ok t, st, false)
      else buildTransporter env acct now fid st
  | none => buildTransporter env acct now fid st

/-- Scanner step of the regex `/<[^>]*>/`: from the characters following a
`<`, greedy `[^>]*` runs to the first `>`; `findGt` returns the suffix after
that `>`, or `none` when no `>` remains (the match fails). -/
def findGt : List Char → Option (List Char)
  | [] => none
  | c :: rest => if c = '>' then some rest else findGt rest

theorem findGt_length : ∀ {l rest : List Char}, findGt l = some rest →
    rest.length < l.length := by
  intro l
  induction l with
  | nil => intro rest h; simp [findGt] at h
  | cons c cs ih =>
      intro rest h
      simp only [findGt] at h
      by_cases hc : c = '>'
      · simp [hc] at h
        simp [← h, List.length_cons, Nat.lt_succ_self]
      · simp [hc] at h
        exact Nat.lt_trans (ih h) (Nat.lt_succ_self _)

/-- Global replacement `html.replace(/<[^>]*>/g, '')` on a character list:
scan left to right; at a `<`, if a later `>` exists the whole `<...>` match is
dropped and scanning resumes after it, otherwise the regex fails at this
position and the `<` is kept; every other character is kept. -/
def stripTagsList : List Char → List Char
  | [] => []
  | c :: rest =>
      if c = '<' then
        match h : findGt rest with
        | some after => stripTagsList after
        | none => c :: stripTagsList rest
      else c :: stripTagsList rest
termination_by l => l.length
decreasing_by
  · exact Nat.lt_trans (findGt_length h) (Nat.lt_succ_self _)
  · exact Nat.lt_succ_self _
  · exact Nat.lt_succ_self _

/-- `const stripHtmlTags = (html) => html.replace(/<[^>]*>/g, '')`. -/
def stripHtmlTags (html : String) : String :=
  String.mk (stripTagsList html.data)

/-- The options object a call of `sendEmail` destructures. A field absent
from the call site is `none`. -/
structure EmailOptions where
  «to» : Option String := none
  subject : Option String := none
  html : Option String := none
  text : Option String := none
deriving DecidableEq, Repr

/-- The `mailOptions` object handed to `transporter.sendMail`. -/
structure MailOptions where
  «from» : String
  «to» : String
  subject : String
  html : String
  text : String
  priority : String
  headerXPriority : String
  headerXMSMailPriority : String
  headerImportance : String
deriving DecidableEq, Repr

/-- Builds the `mailOptions` literal of `sendEmail`: fixed display-name sender
interpolating `process.env.EMAIL_USER`, the validated fields, and
`text: text || stripHtmlTags(html)`; high-priority headers. -/
def mkMailOptions (env : Env) (opts : EmailOptions) : MailOptions :=
  { «from» := "\"Websters - Shivaji College\" <" ++ jsTemplateStr env.EMAIL_USER ++ ">"
    «to» := opts.«to».getD ""
    subject := opts.subject.getD ""
    html := opts.html.getD ""
    text := jsOr opts.text (stripHtmlTags (opts.html.getD ""))
    priority := "high"
    headerXPriority := "1"
    headerXMSMailPriority := "High"
    headerImportance := "high" }

/-- What `transporter.sendMail(mailOptions)` does for this call and when (ms
until the promise settles): it either fulfills with a `messageId` or rejects
with an error message and optional code. -/
inductive DeliveryOutcome where
  | delivered (messageId : String) (elapsedMs : Nat)
  | failed (message : String) (code : Option String) (elapsedMs : Nat)
deriving DecidableEq, Repr

/-- The `info` object of a fulfilled `sendMail` promise. -/
structure MailInfo where
  messageId : String
deriving DecidableEq, Repr

/-- `Promise.race([emailPromise, timeoutPromise])`: the delivery promise wins
when it settles before the 30 s timer fires; otherwise the timer rejects with
`Error('Email sending timed out')`. -/
def raceDelivery (o : DeliveryOutcome) : Except JsError MailInfo :=
  match o with
  | DeliveryOutcome.delivered mid t =>
      if t < EMAIL_TIMEOUT then Except.ok { messageId := mid }
      else Except.error { message := "Email sending timed out" }
  | DeliveryOutcome.failed msg code t =>
      if t < EMAIL_TIMEOUT then Except.error { message := msg, code := code }
      else Except.error { message := "Email sending timed out" }

/-- Observable side effects of one `sendEmail` call: whether a transporter was
newly constructed, and the `mailOptions` passed to `sendMail` (`none` when no
delivery was attempted). -/
structure SendEffects where
  constructedTransport : Bool
  sentMail : Option MailOptions
deriving DecidableEq, Repr

/-- The result value of the public send functions: either
`{success:true, messageId}` or `{success:false, error, code?}`. -/
inductive SendResult where
  | ok (messageId : String)
  | err (error : String) (code : Option String)
deriving DecidableEq, Repr

/-- `sendEmail({to, subject, html, text})`: validate, obtain a transporter,
build `mailOptions`, race delivery against the 30 s timer, and normalize every
thrown error in the `catch` block into `{success:false, error, code}`. -/
def sendEmail (env : Env) (acct : Except JsError Account) (now : Nat)
    (fid : Nat) (outcome : DeliveryOutcome) (opts : EmailOptions)
    (st : CacheState) : SendResult × CacheState × SendEffects :=
  if jsFalsy opts.«to» || jsFalsy opts.subject || jsFalsy opts.html then
    (SendResult.err "Missing required email parameters (to, subject, or html)" none,
      st, { constructedTransport := false, sentMail := none })
  else
    match createTransporter env acct now fid st with
    | (Except.error e, st', built) =>
        (SendResult.err e.message e.code, st',
          { constructedTransport := built, sentMail := none })
    | (Except.ok _, st', built) =>
        let mo := mkMailOptions env opts
        match raceDelivery outcome with
        | Except.ok info =>
            (SendResult.ok info.messageId, st',
              { constructedTransport := built, sentMail := some mo })
        | Except.error e =>
            (SendResult.err e.message e.code, st',
              { constructedTransport := built, sentMail := some mo })

/-- `sendWorkshopConfirmation({email, name, subject, template})`: validate the
four fields, then delegate to `sendEmail` with `to = email`, `html = template`
and no explicit `text`. -/
def sendWorkshopConfirmation (env : Env) (acct : Except JsError Account)
    (now : Nat) (fid : Nat) (outcome : DeliveryOutcome)
    (email name subject template : Option String) (st : CacheState) :
    SendResult × CacheState × SendEffects :=
  if jsFalsy email || jsFalsy name || jsFalsy subject || jsFalsy template then
    (SendResult.err "Missing required parameters for workshop confirmation email" none,
      st, { constructedTransport := false, sentMail := none })
  else
    sendEmail env acct now fid outcome
      { «to» := email, subject := subject, html := template, text := none } st

/-- On the empty findGt result (no later `>`), the regex match at this `<`
fails and the character is kept. -/
theorem findGt_eq_none_iff {l : List Char} : findGt l = none ↔ '>' ∉ l := by
  induction l with
  | nil => simp [findGt]
  | cons c cs ih =>
      simp only [findGt, List.mem_cons]
      by_cases hc : c = '>'
      · simp [hc]
      · simp only [hc, if_false, ih]
        constructor
        · intro hn hor
          rcases hor with he | hm
          · exact hc he.symm
          · exact hn hm
        · intro hall hm
          exact hall (Or.inr hm)

theorem stripTagsList_cons_lt_none {cs : List Char} (hnone : findGt cs = none) :
    stripTagsList ('<' :: cs) = '<' :: stripTagsList cs := by
  rw [stripTagsList, if_pos rfl]
  split
  · next after hsome =>
      rw [hnone] at hsome
      exact absurd hsome (by simp)
  · rfl

theorem stripTagsList_cons_lt_some {cs after : List Char}
    (hsome : findGt cs = some after) :
    stripTagsList ('<' :: cs) = stripTagsList after := by
  rw [stripTagsList, if_pos rfl]
  split
  · next a ha =>
      rw [hsome] at ha
      injection ha with hh
      rw [hh]
  · next hnone =>
      rw [hsome] at hnone
      exact absurd hnone (by simp)

theorem stripTagsList_cons_ne {c : Char} {cs : List Char} (hc : c ≠ '<') :
    stripTagsList (c :: cs) = c :: stripTagsList cs := by
  rw [stripTagsList, if_neg hc]

/-- A character list containing no `>` admits no match of the tag regex, so
stripping leaves it unchanged. -/
theorem stripTagsList_no_gt : ∀ {l : List Char}, '>' ∉ l → stripTagsList l = l := by
  intro l
  induction l with
  | nil => intro _; simp [stripTagsList]
  | cons c cs ih =>
      intro h
      have hcs : '>' ∉ cs := fun hm => h (List.mem_cons_of_mem _ hm)
      by_cases hc : c = '<'
      · subst hc
        rw [stripTagsList_cons_lt_none (findGt_eq_none_iff.mpr hcs), ih hcs]
      · rw [stripTagsList_cons_ne hc, ih hcs]

theorem stripTagsList_idem_fuel : ∀ (n : Nat) (l : List Char), l.length ≤ n →
    stripTagsList (stripTagsList l) = stripTagsList l := by
  intro n
  induction n with
  | zero =>
      intro l hl
      have : l = [] := List.eq_nil_of_length_eq_zero (Nat.le_zero.mp hl)
      subst this
      simp [stripTagsList]
  | succ n ih =>
      intro l hl
      match l with
      | [] => simp [stripTagsList]
      | c :: rest =>
          have hrest : rest.length ≤ n :=
            Nat.lt_succ_iff.mp (Nat.lt_of_lt_of_le (Nat.lt_succ_self _) hl)
          by_cases hc : c = '<'
          · subst hc
            match hfg : findGt rest with
            | some after =>
                have hafter : after.length ≤ n :=
                  Nat.lt_succ_iff.mp (Nat.lt_of_lt_of_le
                    (Nat.lt_trans (findGt_length hfg) (Nat.lt_succ_self _)) hl)
                rw [stripTagsList_cons_lt_some hfg]
                exact ih after hafter
            | none =>
                have hng : '>' ∉ rest := findGt_eq_none_iff.mp hfg
                rw [stripTagsList_cons_lt_none hfg, stripTagsList_no_gt hng,
                  stripTagsList_cons_lt_none hfg, stripTagsList_no_gt hng]
          · rw [stripTagsList_cons_ne hc, stripTagsList_cons_ne hc]
            rw [ih rest hrest]

/-- One global pass of the tag regex removal is a fixed point of itself. -/
theorem stripTagsList_idem (l : List Char) :
    stripTagsList (stripTagsList l) = stripTagsList l :=
  stripTagsList_idem_fuel l.length l (Nat.le_refl _)

/-- The destructuring swap `[a[i], a[j]] = [a[j], a[i]]` inside `shuffleArray`,
on a copied list; out-of-range indices leave the list unchanged (they never
occur for the indices the loop produces). -/
def swapL {α : Type _} (l : List α) (i j : Nat) : List α :=
  match l[i]?, l[j]? with
  | some a, some b => (l.set i b).set j a
  | _, _ => l

/-- The Fisher-Yates loop of `shuffleArray`: the counter runs
`i = length-1, ..., 1`, swapping position `i` with position `r i`, where
`r i` models the draw `Math.floor(Math.random() * (i + 1))` of that
iteration (always in `0..i` at runtime). -/
def shuffleGo {α : Type _} (r : Nat → Nat) : Nat → List α → List α
  | 0, l => l
  | n + 1, l => shuffleGo r n (swapL l (n + 1) (r (n + 1)))

/-- `shuffleArray`: copy the input (`[...array]`) and run the Fisher-Yates
loop from index `length - 1` down to `1`. -/
def shuffleArray {α : Type _} (r : Nat → Nat) (l : List α) : List α :=
  shuffleGo r (l.length - 1) l

/-- `columns[k].push(x)` on an immutable list of columns. -/
def pushAt {α : Type _} (cols : List (List α)) (k : Nat) (x : α) : List (List α) :=
  cols.set k (cols.getD k [] ++ [x])

/-- `shuffled.forEach((logo, index) => columns[index % columnCount].push(logo))`. -/
def fillCols {α : Type _} (cc : Nat) : List α → Nat → List (List α) → List (List α)
  | [], _, cols => cols
  | x :: xs, idx, cols => fillCols cc xs (idx + 1) (pushAt cols (idx % cc) x)

/-- `Math.max(...columns.map(col => col.length))`, with `0` for the empty
spread (the source only evaluates it with at least one column). -/
def maxColLength {α : Type _} (cols : List (List α)) : Nat :=
  (cols.map List.length).foldr max 0

/-- The `while (col.length < maxLength)` padding loop on one column: append
`k` picks `shuffled[Math.floor(Math.random() * shuffled.length)]`; the draw
counter `ctr` indexes the oracle `p` giving each draw's result. -/
def padColGo {α : Type _} [Inhabited α] (shuffled : List α) (p : Nat → Nat) :
    Nat → List α → Nat → List α × Nat
  | 0, col, ctr => (col, ctr)
  | k + 1, col, ctr =>
      padColGo shuffled p k (col ++ [shuffled.getD (p ctr) default]) (ctr + 1)

/-- `columns.forEach` of the padding phase, threading the draw counter. -/
def padAll {α : Type _} [Inhabited α] (shuffled : List α) (p : Nat → Nat)
    (maxLen : Nat) : List (List α) → Nat → List (List α) × Nat
  | [], ctr => ([], ctr)
  | col :: rest, ctr =>
      let pc := padColGo shuffled p (maxLen - col.length) col ctr
      let pr := padAll shuffled p maxLen rest pc.2
      (pc.1 :: pr.1, pr.2)

/-- `distributeLogos(allLogos, columnCount)`: shuffle, deal round-robin into
`columnCount` columns, then pad every column up to the longest column's
length with random picks from the shuffled list. `r` supplies the shuffle
draws and `p` the padding draws. -/
def distributeLogos {α : Type _} [Inhabited α] (r p : Nat → Nat)
    (allLogos : List α) (columnCount : Nat) : List (List α) :=
  let shuffled := shuffleArray r allLogos
  let columns := fillCols columnCount shuffled 0 (List.replicate columnCount [])
  let maxLength := maxColLength columns
  (padAll shuffled p maxLength columns 0).1

theorem perm_cons_set {α : Type _} : ∀ (xs : List α) (k : Nat) (a b : α),
    xs[k]? = some b → (b :: xs.set k a).Perm (a :: xs) := by
  intro xs
  induction xs with
  | nil => intro k a b h; simp at h
  | cons y ys ih =>
      intro k a b h
      match k with
      | 0 =>
          simp at h
          subst h
          simpa using List.Perm.swap a y ys
      | Nat.succ m =>
          simp at h
          have hperm := ih m a b h
          have h1 : (b :: (y :: ys).set (m + 1) a) = b :: y :: ys.set m a := by
            simp [List.set]
          rw [h1]
          exact ((List.Perm.swap y b _).trans (List.Perm.cons y hperm)).trans
            (List.Perm.swap a y ys)

theorem set_set_perm {α : Type _} : ∀ (l : List α) (i j : Nat) (a b : α),
    l[i]? = some a → l[j]? = some b → ((l.set i b).set j a).Perm l := by
  intro l
  induction l with
  | nil => intro i j a b ha _; simp at ha
  | cons x xs ih =>
      intro i j a b ha hb
      match i, j with
      | 0, 0 =>
          simp at ha hb
          subst ha; subst hb
          simp
      | 0, Nat.succ m =>
          simp at ha hb
          rw [← ha]
          have h1 : ((x :: xs).set 0 b).set (m + 1) x = b :: xs.set m x := by
            simp [List.set]
          rw [h1]
          exact perm_cons_set xs m x b hb
      | Nat.succ k, 0 =>
          simp at ha hb
          rw [← hb]
          have h1 : ((x :: xs).set (k + 1) x).set 0 a = a :: xs.set k x := by
            simp [List.set]
          rw [h1]
          exact perm_cons_set xs k x a ha
      | Nat.succ k, Nat.succ m =>
          simp at ha hb
          have h1 : ((x :: xs).set (k + 1) b).set (m + 1) a
              = x :: (xs.set k b).set m a := by
            simp [List.set]
          rw [h1]
          exact List.Perm.cons x (ih k m a b ha hb)

theorem swapL_perm {α : Type _} (l : List α) (i j : Nat) : (swapL l i j).Perm l := by
  unfold swapL
  split
  · next a b ha hb => exact set_set_perm l i j a b ha hb
  · exact List.Perm.refl l

theorem shuffleGo_perm {α : Type _} (r : Nat → Nat) :
    ∀ (n : Nat) (l : List α), (shuffleGo r n l).Perm l := by
  intro n
  induction n with
  | zero => intro l; exact List.Perm.refl l
  | succ n ih =>
      intro l
      exact (ih _).trans (swapL_perm l (n + 1) (r (n + 1)))

theorem shuffleArray_perm {α : Type _} (r : Nat → Nat) (l : List α) :
    (shuffleArray r l).Perm l :=
  shuffleGo_perm r (l.length - 1) l

theorem length_pushAt {α : Type _} (cols : List (List α)) (k : Nat) (x : α) :
    (pushAt cols k x).length = cols.length :=
  List.length_set cols k _

theorem length_fillCols {α : Type _} (cc : Nat) : ∀ (xs : List α) (idx : Nat)
    (cols : List (List α)), (fillCols cc xs idx cols).length = cols.length := by
  intro xs
  induction xs with
  | nil => intro idx cols; rfl
  | cons x xs ih =>
      intro idx cols
      rw [fillCols, ih, length_pushAt]

theorem mem_getD_nil {α : Type _} {cols : List (List α)} {k : Nat} {x : α}
    (h : x ∈ cols.getD k []) : ∃ c ∈ cols, x ∈ c := by
  by_cases hk : k < cols.length
  · exact ⟨cols[k], List.getElem_mem hk, by rwa [List.getD_eq_getElem cols [] hk] at h⟩
  · rw [List.getD_eq_getElem?_getD, List.getElem?_eq_none (Nat.le_of_not_lt hk)] at h
    simp at h

theorem mem_pushAt_up {α : Type _} {cols : List (List α)} {k : Nat} {y : α}
    {c : List α} {x : α} (hc : c ∈ pushAt cols k y) (hx : x ∈ c) :
    x = y ∨ ∃ c' ∈ cols, x ∈ c' := by
  rcases List.mem_or_eq_of_mem_set hc with hin | heq
  · exact Or.inr ⟨c, hin, hx⟩
  · subst heq
    rcases List.mem_append.mp hx with hin | hy
    · exact Or.inr (mem_getD_nil hin)
    · simp at hy
      exact Or.inl hy

theorem mem_pushAt_mono {α : Type _} {cols : List (List α)} (k : Nat) (y : α)
    {x : α} (h : ∃ c ∈ cols, x ∈ c) : ∃ c ∈ pushAt cols k y, x ∈ c := by
  rcases h with ⟨c, hc, hx⟩
  rcases List.mem_iff_getElem.mp hc with ⟨i, hi, hci⟩
  by_cases hik : i = k
  · subst hik
    refine ⟨cols.getD i [] ++ [y], ?_, ?_⟩
    · have hlen : i < (pushAt cols i y).length := by
        rw [length_pushAt]; exact hi
      have : (pushAt cols i y)[i] = cols.getD i [] ++ [y] :=
        List.getElem_set_self _
      rw [← this]
      exact List.getElem_mem hlen
    · rw [List.getD_eq_getElem cols [] hi, hci]
      exact List.mem_append_left _ hx
  · refine ⟨c, ?_, hx⟩
    have hlen : i < (pushAt cols k y).length := by
      rw [length_pushAt]; exact hi
    have heq : (pushAt cols k y)[i] = cols[i] :=
      List.getElem_set_ne (fun h => hik h.symm) _
    rw [← hci, ← heq]
    exact List.getElem_mem hlen

theorem mem_pushAt_self {α : Type _} {cols : List (List α)} {k : Nat} (y : α)
    (hk : k < cols.length) : ∃ c ∈ pushAt cols k y, y ∈ c := by
  refine ⟨cols.getD k [] ++ [y], ?_, List.mem_append_right _ (by simp)⟩
  have hlen : k < (pushAt cols k y).length := by
    rw [length_pushAt]; exact hk
  have : (pushAt cols k y)[k] = cols.getD k [] ++ [y] :=
    List.getElem_set_self _
  rw [← this]
  exact List.getElem_mem hlen

theorem mem_fillCols_up {α : Type _} (cc : Nat) : ∀ (xs : List α) (idx : Nat)
    (cols : List (List α)) (c : List α) (x : α),
    c ∈ fillCols cc xs idx cols → x ∈ c → x ∈ xs ∨ ∃ c' ∈ cols, x ∈ c' := by
  intro xs
  induction xs with
  | nil =>
      intro idx cols c x hc hx
      exact Or.inr ⟨c, hc, hx⟩
  | cons y ys ih =>
      intro idx cols c x hc hx
      rw [fillCols] at hc
      rcases ih (idx + 1) (pushAt cols (idx % cc) y) c x hc hx with hin | ⟨c', hc', hx'⟩
      · exact Or.inl (List.mem_cons_of_mem _ hin)
      · rcases mem_pushAt_up hc' hx' with hxy | hrest
        · exact Or.inl (hxy ▸ List.mem_cons_self _ _)
        · exact Or.inr hrest

theorem mem_fillCols_mono {α : Type _} (cc : Nat) : ∀ (xs : List α) (idx : Nat)
    (cols : List (List α)) (x : α), (∃ c ∈ cols, x ∈ c) →
    ∃ c ∈ fillCols cc xs idx cols, x ∈ c := by
  intro xs
  induction xs with
  | nil => intro idx cols x h; exact h
  | cons y ys ih =>
      intro idx cols x h
      rw [fillCols]
      exact ih (idx + 1) _ x (mem_pushAt_mono (idx % cc) y h)

theorem mem_fillCols_covers {α : Type _} (cc : Nat) (hcc : 0 < cc) :
    ∀ (xs : List α) (idx : Nat) (cols : List (List α)), cols.length = cc →
    ∀ x ∈ xs, ∃ c ∈ fillCols cc xs idx cols, x ∈ c := by
  intro xs
  induction xs with
  | nil => intro idx cols _ x hx; simp at hx
  | cons y ys ih =>
      intro idx cols hlen x hx
      rw [fillCols]
      rcases List.mem_cons.mp hx with rfl | hmem
      · have hk : idx % cc < cols.length := by
          rw [hlen]; exact Nat.mod_lt idx hcc
        exact mem_fillCols_mono cc ys (idx + 1) _ x (mem_pushAt_self x hk)
      · exact ih (idx + 1) _ (by rw [length_pushAt, hlen]) x hmem

theorem le_maxColLength {α : Type _} : ∀ (cols : List (List α)) (c : List α),
    c ∈ cols → c.length ≤ maxColLength cols := by
  intro cols
  induction cols with
  | nil => intro c hc; simp at hc
  | cons c' rest ih =>
      intro c hc
      rcases List.mem_cons.mp hc with rfl | hmem
      · exact Nat.le_max_left _ _ |>.trans (Nat.le_refl _)
      · exact (ih c hmem).trans (Nat.le_max_right _ _)

theorem padColGo_length {α : Type _} [Inhabited α] (shuffled : List α)
    (p : Nat → Nat) : ∀ (k : Nat) (col : List α) (ctr : Nat),
    (padColGo shuffled p k col ctr).1.length = col.length + k := by
  intro k
  induction k with
  | zero => intro col ctr; rfl
  | succ k ih =>
      intro col ctr
      rw [padColGo, ih]
      simp only [List.length_append, List.length_cons, List.length_nil]
      omega

theorem padColGo_mem_up {α : Type _} [Inhabited α] (shuffled : List α)
    (p : Nat → Nat) (hp : ∀ n, p n < shuffled.length) :
    ∀ (k : Nat) (col : List α) (ctr : Nat) (x : α),
    x ∈ (padColGo shuffled p k col ctr).1 → x ∈ col ∨ x ∈ shuffled := by
  intro k
  induction k with
  | zero => intro col ctr x hx; exact Or.inl hx
  | succ k ih =>
      intro col ctr x hx
      rw [padColGo] at hx
      rcases ih _ _ x hx with hin | hsh
      · rcases List.mem_append.mp hin with hcol | he
        · exact Or.inl hcol
        · have he' : x = shuffled.getD (p ctr) default := List.mem_singleton.mp he
          refine Or.inr ?_
          rw [he', List.getD_eq_getElem shuffled default (hp ctr)]
          exact List.getElem_mem (hp ctr)
      · exact Or.inr hsh

theorem padColGo_mono {α : Type _} [Inhabited α] (shuffled : List α)
    (p : Nat → Nat) : ∀ (k : Nat) (col : List α) (ctr : Nat) (x : α),
    x ∈ col → x ∈ (padColGo shuffled p k col ctr).1 := by
  intro k
  induction k with
  | zero => intro col ctr x hx; exact hx
  | succ k ih =>
      intro col ctr x hx
      rw [padColGo]
      exact ih _ _ x (List.mem_append_left _ hx)

theorem padAll_length {α : Type _} [Inhabited α] (shuffled : List α)
    (p : Nat → Nat) (maxLen : Nat) : ∀ (cols : List (List α)) (ctr : Nat),
    (padAll shuffled p maxLen cols ctr).1.length = cols.length := by
  intro cols
  induction cols with
  | nil => intro ctr; rfl
  | cons col rest ih =>
      intro ctr
      rw [padAll]
      simp [ih]

theorem padAll_col_length {α : Type _} [Inhabited α] (shuffled : List α)
    (p : Nat → Nat) (maxLen : Nat) : ∀ (cols : List (List α)) (ctr : Nat),
    (∀ c ∈ cols, c.length ≤ maxLen) →
    ∀ c ∈ (padAll shuffled p maxLen cols ctr).1, c.length = maxLen := by
  intro cols
  induction cols with
  | nil => intro ctr _ c hc; simp [padAll] at hc
  | cons col rest ih =>
      intro ctr hb c hc
      rw [padAll] at hc
      rcases List.mem_cons.mp hc with rfl | hmem
      · rw [padColGo_length]
        exact Nat.add_sub_cancel' (hb col (List.mem_cons_self _ _))
      · exact ih _ (fun c' hc' => hb c' (List.mem_cons_of_mem _ hc')) c hmem

theorem padAll_mem_up {α : Type _} [Inhabited α] (shuffled : List α)
    (p : Nat → Nat) (hp : ∀ n, p n < shuffled.length) (maxLen : Nat) :
    ∀ (cols : List (List α)) (ctr : Nat) (c : List α) (x : α),
    c ∈ (padAll shuffled p maxLen cols ctr).1 → x ∈ c →
    (∃ c' ∈ cols, x ∈ c') ∨ x ∈ shuffled := by
  intro cols
  induction cols with
  | nil => intro ctr c x hc _; simp [padAll] at hc
  | cons col rest ih =>
      intro ctr c x hc hx
      rw [padAll] at hc
      rcases List.mem_cons.mp hc with rfl | hmem
      · rcases padColGo_mem_up shuffled p hp _ _ _ x hx with hcol | hsh
        · exact Or.inl ⟨col, List.mem_cons_self _ _, hcol⟩
        · exact Or.inr hsh
      · rcases ih _ c x hmem hx with ⟨c', hc', hx'⟩ | hsh
        · exact Or.inl ⟨c', List.mem_cons_of_mem _ hc', hx'⟩
        · exact Or.inr hsh

theorem padAll_mem_down {α : Type _} [Inhabited α] (shuffled : List α)
    (p : Nat → Nat) (maxLen : Nat) : ∀ (cols : List (List α)) (ctr : Nat)
    (x : α), (∃ c ∈ cols, x ∈ c) →
    ∃ c ∈ (padAll shuffled p maxLen cols ctr).1, x ∈ c := by
  intro cols
  induction cols with
  | nil => intro ctr x h; simpa using h
  | cons col rest ih =>
      intro ctr x h
      rcases h with ⟨c, hc, hx⟩
      rw [padAll]
      rcases List.mem_cons.mp hc with rfl | hmem
      · exact ⟨_, List.mem_cons_self _ _, padColGo_mono shuffled p _ _ _ x hx⟩
      · rcases ih _ x ⟨c, hmem, hx⟩ with ⟨c', hc', hx'⟩
        exact ⟨c', List.mem_cons_of_mem _ hc', hx'⟩

/-- C10: for a non-empty logo list and `columnCount ≥ 1`, `distributeLogos`
returns exactly `columnCount` columns of equal length, every column entry is
drawn from the input, and every input logo appears in at least one column.
`r` and `p` model the `Math.random` draws (`p` always lands inside the
shuffled list, as `Math.floor(Math.random() * length)` does). -/
theorem distributeLogos_spec {α : Type _} [Inhabited α] (r p : Nat → Nat)
    (allLogos : List α) (columnCount : Nat) (hcc : 1 ≤ columnCount)
    (hne : allLogos ≠ []) (hp : ∀ n, p n < allLogos.length) :
    (distributeLogos r p allLogos columnCount).length = columnCount ∧
    (∀ c₁ ∈ distributeLogos r p allLogos columnCount,
      ∀ c₂ ∈ distributeLogos r p allLogos columnCount, c₁.length = c₂.length) ∧
    (∀ c ∈ distributeLogos r p allLogos columnCount, ∀ x ∈ c, x ∈ allLogos) ∧
    (∀ x ∈ allLogos, ∃ c ∈ distributeLogos r p allLogos columnCount, x ∈ c) := by
  have hperm := shuffleArray_perm r allLogos
  have hlen : (shuffleArray r allLogos).length = allLogos.length := hperm.length_eq
  have hp' : ∀ n, p n < (shuffleArray r allLogos).length := fun n => hlen ▸ hp n
  have hres : distributeLogos r p allLogos columnCount =
      (padAll (shuffleArray r allLogos) p
        (maxColLength (fillCols columnCount (shuffleArray r allLogos) 0
          (List.replicate columnCount [])))
        (fillCols columnCount (shuffleArray r allLogos) 0
          (List.replicate columnCount [])) 0).1 := rfl
  rw [hres]
  refine ⟨?_, ?_, ?_, ?_⟩
  · rw [padAll_length, length_fillCols, List.length_replicate]
  · intro c₁ hc₁ c₂ hc₂
    have hb : ∀ c ∈ fillCols columnCount (shuffleArray r allLogos) 0
        (List.replicate columnCount []),
        c.length ≤ maxColLength (fillCols columnCount (shuffleArray r allLogos) 0
          (List.replicate columnCount [])) :=
      fun c hc => le_maxColLength _ c hc
    rw [padAll_col_length _ _ _ _ _ hb c₁ hc₁, padAll_col_length _ _ _ _ _ hb c₂ hc₂]
  · intro c hc x hx
    rcases padAll_mem_up _ _ hp' _ _ _ c x hc hx with ⟨c', hc', hx'⟩ | hsh
    · rcases mem_fillCols_up columnCount _ 0 _ c' x hc' hx' with hsh | ⟨c'', hc'', hx''⟩
      · exact hperm.mem_iff.mp hsh
      · rw [List.eq_of_mem_replicate hc''] at hx''
        simp at hx''
    · exact hperm.mem_iff.mp hsh
  · intro x hx
    have hxs : x ∈ shuffleArray r allLogos := hperm.mem_iff.mpr hx
    have hcols := mem_fillCols_covers columnCount hcc _ 0
      (List.replicate columnCount []) (List.length_replicate _ _) x hxs
    exact padAll_mem_down _ _ _ _ 0 x hcols

theorem distributeLogos_spec_witness :
    (distributeLogos (fun _ => 0) (fun _ => 0) [1, 2, 3] 2).length = 2 ∧
    (∀ c₁ ∈ distributeLogos (fun _ => 0) (fun _ => 0) [1, 2, 3] 2,
      ∀ c₂ ∈ distributeLogos (fun _ => 0) (fun _ => 0) [1, 2, 3] 2,
        c₁.length = c₂.length) ∧
    (∀ c ∈ distributeLogos (fun _ => 0) (fun _ => 0) [1, 2, 3] 2,
      ∀ x ∈ c, x ∈ [1, 2, 3]) ∧
    (∀ x ∈ [1, 2, 3], ∃ c ∈ distributeLogos (fun _ => 0) (fun _ => 0) [1, 2, 3] 2,
      x ∈ c) :=
  distributeLogos_spec (fun _ => 0) (fun _ => 0) [1, 2, 3] 2 (by decide)
    (by decide) (fun _ => by show (0 : Nat) < 3; decide)

/-- C2: on a missing/empty `to`, `subject` or `html`, `sendEmail` returns the
fixed validation failure, leaves the cache untouched, constructs no
transporter, and attempts no delivery. -/
theorem sendEmail_missing_params (env : Env) (acct : Except JsError Account)
    (now fid : Nat) (outcome : DeliveryOutcome) (opts : EmailOptions)
    (st : CacheState)
    (h : (jsFalsy opts.«to» || jsFalsy opts.subject || jsFalsy opts.html) = true) :
    sendEmail env acct now fid outcome opts st =
      (SendResult.err "Missing required email parameters (to, subject, or html)" none,
        st, { constructedTransport := false, sentMail := none }) := by
  simp [sendEmail, h]

theorem sendEmail_missing_params_witness :
    sendEmail {} (Except.ok { user := "u", pass := "p" }) 0 1
      (DeliveryOutcome.delivered "m" 0)
      { subject := some "s", html := some "<p>x</p>" } initialCacheState =
      (SendResult.err "Missing required email parameters (to, subject, or html)" none,
        initialCacheState, { constructedTransport := false, sentMail := none }) :=
  sendEmail_missing_params {} (Except.ok { user := "u", pass := "p" }) 0 1
    (DeliveryOutcome.delivered "m" 0)
    { subject := some "s", html := some "<p>x</p>" } initialCacheState (by decide)

/-- C1: every `sendEmail` call resolves to a structured result and never
rethrows: either the validation failure, or the normalization
`{success:false, error: e.message, code: e.code}` of the error thrown inside
transport acquisition or delivery (timeout included), or
`{success:true, messageId}` from a delivery that won the race. -/
theorem sendEmail_never_throws (env : Env) (acct : Except JsError Account)
    (now fid : Nat) (outcome : DeliveryOutcome) (opts : EmailOptions)
    (st : CacheState) :
    ((jsFalsy opts.«to» || jsFalsy opts.subject || jsFalsy opts.html) = true ∧
      (sendEmail env acct now fid outcome opts st).1 =
        SendResult.err "Missing required email parameters (to, subject, or html)" none) ∨
    (∃ e, (createTransporter env acct now fid st).1 = Except.error e ∧
      (sendEmail env acct now fid outcome opts st).1 =
        SendResult.err e.message e.code) ∨
    (∃ t, (createTransporter env acct now fid st).1 = Except.ok t ∧
      ((∃ e, raceDelivery outcome = Except.error e ∧
        (sendEmail env acct now fid outcome opts st).1 =
          SendResult.err e.message e.code) ∨
      (∃ i, raceDelivery outcome = Except.ok i ∧
        (sendEmail env acct now fid outcome opts st).1 =
          SendResult.ok i.messageId))) := by
  by_cases hv : (jsFalsy opts.«to» || jsFalsy opts.subject || jsFalsy opts.html) = true
  · exact Or.inl ⟨hv, by simp [sendEmail, hv]⟩
  · have hv' : (jsFalsy opts.«to» || jsFalsy opts.subject || jsFalsy opts.html) = false :=
      Bool.eq_false_iff.mpr hv
    rcases hct : createTransporter env acct now fid st with ⟨er, st', built⟩
    cases er with
    | error e =>
        refine Or.inr (Or.inl ⟨e, rfl, ?_⟩)
        simp [sendEmail, hv', hct]
    | ok t =>
        refine Or.inr (Or.inr ⟨t, rfl, ?_⟩)
        cases hrd : raceDelivery outcome with
        | error e =>
            exact Or.inl ⟨e, rfl, by simp [sendEmail, hv', hct, hrd]⟩
        | ok i =>
            exact Or.inr ⟨i, rfl, by simp [sendEmail, hv', hct, hrd]⟩

theorem sendEmail_state_of_valid (env : Env) (acct : Except JsError Account)
    (now fid : Nat) (outcome : DeliveryOutcome) (opts : EmailOptions)
    (st : CacheState)
    (hv : (jsFalsy opts.«to» || jsFalsy opts.subject || jsFalsy opts.html) = false) :
    (sendEmail env acct now fid outcome opts st).2.1 =
      (createTransporter env acct now fid st).2.1 := by
  rcases hct : createTransporter env acct now fid st with ⟨er, st', built⟩
  cases er with
  | error e => simp [sendEmail, hv, hct]
  | ok t =>
      cases hrd : raceDelivery outcome with
      | error e => simp [sendEmail, hv, hct, hrd]
      | ok i => simp [sendEmail, hv, hct, hrd]

/-- C5: with valid fields and an obtained transporter, whenever the 30 s
timer settles first (`EMAIL_TIMEOUT ≤ elapsed`), the call resolves to
`{success:false, error:"Email sending timed out"}` whether the late delivery
would have succeeded or failed, and the cache state after the call never
depends on the delivery outcome at all, so a late settlement cannot leak into
this or any later call. -/
theorem sendEmail_timeout_spec (env : Env) (acct : Except JsError Account)
    (now fid : Nat) (opts : EmailOptions) (st : CacheState) (t : Transporter)
    (mid msg : String) (code : Option String) (e₁ e₂ : Nat)
    (hv : (jsFalsy opts.«to» || jsFalsy opts.subject || jsFalsy opts.html) = false)
    (htr : (createTransporter env acct now fid st).1 = Except.ok t)
    (h₁ : EMAIL_TIMEOUT ≤ e₁) (h₂ : EMAIL_TIMEOUT ≤ e₂) :
    (sendEmail env acct now fid (DeliveryOutcome.delivered mid e₁) opts st).1 =
      SendResult.err "Email sending timed out" none ∧
    (sendEmail env acct now fid (DeliveryOutcome.failed msg code e₂) opts st).1 =
      SendResult.err "Email sending timed out" none ∧
    (∀ o₁ o₂ : DeliveryOutcome,
      (sendEmail env acct now fid o₁ opts st).2.1 =
        (sendEmail env acct now fid o₂ opts st).2.1) := by
  rcases hct : createTransporter env acct now fid st with ⟨er, st', built⟩
  have her : er = Except.ok t := by
    have := congrArg Prod.fst hct
    simp at this
    rw [← this]
    exact htr
  subst her
  refine ⟨?_, ?_, ?_⟩
  · simp [sendEmail, hv, hct, raceDelivery, Nat.not_lt.mpr h₁]
  · simp [sendEmail, hv, hct, raceDelivery, Nat.not_lt.mpr h₂]
  · intro o₁ o₂
    rw [sendEmail_state_of_valid env acct now fid o₁ opts st hv,
      sendEmail_state_of_valid env acct now fid o₂ opts st hv]

theorem sendEmail_timeout_spec_witness :
    (sendEmail { EMAIL_USER := some "u", EMAIL_PASSWORD := some "p" }
      (Except.ok { user := "tu", pass := "tp" }) 0 1
      (DeliveryOutcome.delivered "late" 30000)
      { «to» := some "a@b.c", subject := some "s", html := some "<p>x</p>" }
      initialCacheState).1 =
      SendResult.err "Email sending timed out" none :=
  (sendEmail_timeout_spec { EMAIL_USER := some "u", EMAIL_PASSWORD := some "p" }
    (Except.ok { user := "tu", pass := "tp" }) 0 1
    { «to» := some "a@b.c", subject := some "s", html := some "<p>x</p>" }
    initialCacheState
    (prodTransporter 1 { EMAIL_USER := some "u", EMAIL_PASSWORD := some "p" })
    "late" "boom" none 30000 31000 (by decide) (by rfl) (by decide)
    (by decide)).1

theorem buildTransporter_ok {env : Env} {acct : Except JsError Account}
    {now fid : Nat} {st : CacheState} {t : Transporter} {st₁ : CacheState}
    {b : Bool}
    (h : buildTransporter env acct now fid st = (Except.ok t, st₁, b)) :
    b = true ∧
      st₁ = { cachedTransporter := some t, transporterCreatedAt := now } := by
  unfold buildTransporter at h
  by_cases hc : credsInvalid env = true
  · rw [if_pos hc] at h
    cases acct with
    | error e => simp at h
    | ok a =>
        simp only [Prod.mk.injEq] at h
        obtain ⟨ht, hst, hb⟩ := h
        injection ht with ht
        exact ⟨hb.symm, by rw [← hst, ht]⟩
  · rw [if_neg hc] at h
    simp only [Prod.mk.injEq] at h
    obtain ⟨ht, hst, hb⟩ := h
    injection ht with ht
    exact ⟨hb.symm, by rw [← hst, ht]⟩

theorem createTransporter_ok_cached {env : Env} {acct : Except JsError Account}
    {now fid : Nat} {st : CacheState} {t : Transporter} {st₁ : CacheState}
    {b : Bool}
    (h : createTransporter env acct now fid st = (Except.ok t, st₁, b)) :
    st₁.cachedTransporter = some t := by
  rcases hst : st.cachedTransporter with _ | t₀
  · simp only [createTransporter, hst] at h
    exact (buildTransporter_ok h).2 ▸ rfl
  · simp only [createTransporter, hst] at h
    by_cases hfresh : now - st.transporterCreatedAt < TRANSPORTER_TTL
    · rw [if_pos hfresh] at h
      simp only [Prod.mk.injEq] at h
      obtain ⟨ht, hst₁, _⟩ := h
      injection ht with ht
      rw [← hst₁, hst, ht]
    · rw [if_neg hfresh] at h
      exact (buildTransporter_ok h).2 ▸ rfl

/-- C3: the transport cache invariant. With a cached handle present, the call
returns it unchanged with no construction exactly when its age is under the
30-minute TTL; after any successful call, a second sequential call within the
TTL window returns the same instance with no further construction (even under
different environment, clock or provisioning behaviour); every construction
records the current time as the new creation timestamp and replaces the cache
entry; and a call finding the entry expired never reuses it: on success it
has constructed a fresh handle and re-stamped the cache. -/
theorem createTransporter_cache_spec (env env' : Env)
    (acct acct' : Except JsError Account) (now now' fid fid' : Nat)
    (st : CacheState) :
    (∀ t, st.cachedTransporter = some t →
      (createTransporter env acct now fid st = (Except.ok t, st, false) ↔
        now - st.transporterCreatedAt < TRANSPORTER_TTL)) ∧
    (∀ t st₁ b, createTransporter env acct now fid st = (Except.ok t, st₁, b) →
      now' - st₁.transporterCreatedAt < TRANSPORTER_TTL →
      createTransporter env' acct' now' fid' st₁ = (Except.ok t, st₁, false)) ∧
    (∀ t st₁, createTransporter env acct now fid st = (Except.ok t, st₁, true) →
      st₁ = { cachedTransporter := some t, transporterCreatedAt := now }) ∧
    (∀ t t' st₁ b, st.cachedTransporter = some t →
      TRANSPORTER_TTL ≤ now - st.transporterCreatedAt →
      createTransporter env acct now fid st = (Except.ok t', st₁, b) →
      b = true ∧
        st₁ = { cachedTransporter := some t', transporterCreatedAt := now }) := by
  refine ⟨?_, ?_, ?_, ?_⟩
  · intro t ht
    constructor
    · intro h
      by_contra hexp
      simp only [createTransporter, ht] at h
      rw [if_neg hexp] at h
      exact absurd (buildTransporter_ok h).1 (by simp)
    · intro hfresh
      simp only [createTransporter, ht]
      rw [if_pos hfresh]
  · intro t st₁ b h hfresh
    have hc := createTransporter_ok_cached h
    simp only [createTransporter, hc]
    rw [if_pos hfresh]
  · intro t st₁ h
    rcases hst : st.cachedTransporter with _ | t₀
    · simp only [createTransporter, hst] at h
      exact (buildTransporter_ok h).2
    · simp only [createTransporter, hst] at h
      by_cases hfresh : now - st.transporterCreatedAt < TRANSPORTER_TTL
      · rw [if_pos hfresh] at h
        simp at h
      · rw [if_neg hfresh] at h
        exact (buildTransporter_ok h).2
  · intro t t' st₁ b ht hexp h
    simp only [createTransporter, ht] at h
    rw [if_neg (Nat.not_lt.mpr hexp)] at h
    exact buildTransporter_ok h

theorem createTransporter_cache_spec_witness :
    createTransporter { EMAIL_USER := some "u", EMAIL_PASSWORD := some "p" }
      (Except.ok { user := "tu", pass := "tp" }) 100 7
      { cachedTransporter := some (prodTransporter 3 {}),
        transporterCreatedAt := 50 } =
      (Except.ok (prodTransporter 3 {}),
        { cachedTransporter := some (prodTransporter 3 {}),
          transporterCreatedAt := 50 }, false) :=
  ((createTransporter_cache_spec
      { EMAIL_USER := some "u", EMAIL_PASSWORD := some "p" } {}
      (Except.ok { user := "tu", pass := "tp" })
      (Except.ok { user := "tu", pass := "tp" }) 100 0 7 0
      { cachedTransporter := some (prodTransporter 3 {}),
        transporterCreatedAt := 50 }).1
    (prodTransporter 3 {}) rfl).mpr (by decide)

theorem jsFalsy_eq_true_iff {x : Option String} :
    jsFalsy x = true ↔ x = none ∨ x = some "" := by
  cases x with
  | none => simp [jsFalsy]
  | some s => simp [jsFalsy]

/-- C4: the cache-miss construction selects test/fallback mode exactly when
`EMAIL_USER` or `EMAIL_PASSWORD` is unset/empty or equals the placeholder
strings; in that mode the handle is `smtp.ethereal.email:587`, non-secure,
with the provisioned test credentials. Any other credential pair selects
production mode: host defaults to `smtp.gmail.com`, port to 587, secure true
only when `EMAIL_SECURE` is the string "true", pool of 5 connections and 100
messages, 10 s connection timeout, 20 s socket timeout. -/
theorem createTransporter_mode_selection (env : Env)
    (acct : Except JsError Account) (now fid : Nat) (a : Account) :
    (credsInvalid env = true ↔
      env.EMAIL_USER = none ∨ env.EMAIL_USER = some "" ∨
      env.EMAIL_PASSWORD = none ∨ env.EMAIL_PASSWORD = some "" ∨
      env.EMAIL_USER = some "YOUR_EMAIL_HERE" ∨
      env.EMAIL_PASSWORD = some "YOUR_APP_PASSWORD_HERE") ∧
    (credsInvalid env = true →
      createTransporter env (Except.ok a) now fid initialCacheState =
        (Except.ok (testTransporter fid a),
          { cachedTransporter := some (testTransporter fid a),
            transporterCreatedAt := now }, true) ∧
      (testTransporter fid a).host = "smtp.ethereal.email" ∧
      (testTransporter fid a).port = some 587 ∧
      (testTransporter fid a).secure = false ∧
      (testTransporter fid a).authUser = a.user ∧
      (testTransporter fid a).authPass = a.pass ∧
      (testTransporter fid a).pool = none ∧
      (testTransporter fid a).connectionTimeout = none) ∧
    (credsInvalid env = false →
      createTransporter env acct now fid initialCacheState =
        (Except.ok (prodTransporter fid env),
          { cachedTransporter := some (prodTransporter fid env),
            transporterCreatedAt := now }, true) ∧
      (prodTransporter fid env).host = jsOr env.EMAIL_HOST "smtp.gmail.com" ∧
      (jsFalsy env.EMAIL_HOST = true →
        (prodTransporter fid env).host = "smtp.gmail.com") ∧
      (jsFalsy env.EMAIL_PORT = true →
        (prodTransporter fid env).port = some 587) ∧
      ((prodTransporter fid env).secure = true ↔
        env.EMAIL_SECURE = some "true") ∧
      (prodTransporter fid env).pool = some true ∧
      (prodTransporter fid env).maxConnections = some 5 ∧
      (prodTransporter fid env).maxMessages = some 100 ∧
      (prodTransporter fid env).connectionTimeout = some 10000 ∧
      (prodTransporter fid env).socketTimeout = some 20000) := by
  refine ⟨?_, ?_, ?_⟩
  · simp only [credsInvalid, Bool.or_eq_true, jsFalsy_eq_true_iff, beq_iff_eq]
    tauto
  · intro hc
    refine ⟨?_, rfl, rfl, rfl, rfl, rfl, rfl, rfl⟩
    simp only [createTransporter, initialCacheState]
    simp only [buildTransporter, hc, if_true]
  · intro hc
    refine ⟨?_, rfl, ?_, ?_, ?_, rfl, rfl, rfl, rfl, rfl⟩
    · simp only [createTransporter, initialCacheState]
      simp only [buildTransporter, hc, Bool.false_eq_true, if_false]
    · intro hfal
      rcases jsFalsy_eq_true_iff.mp hfal with h | h
      · simp [prodTransporter, jsOr, h]
      · simp [prodTransporter, jsOr, h]
    · intro hfal
      rcases jsFalsy_eq_true_iff.mp hfal with h | h
      · simp [prodTransporter, jsOr, h, jsParseInt, parseDigits]
      · simp [prodTransporter, jsOr, h, jsParseInt, parseDigits]
    · simp [prodTransporter]

theorem createTransporter_mode_selection_witness :
    createTransporter {} (Except.ok { user := "tu", pass := "tp" }) 5 1
      initialCacheState =
      (Except.ok (testTransporter 1 { user := "tu", pass := "tp" }),
        { cachedTransporter := some (testTransporter 1 { user := "tu", pass := "tp" }),
          transporterCreatedAt := 5 }, true) ∧
    createTransporter { EMAIL_USER := some "u", EMAIL_PASSWORD := some "p" }
      (Except.ok { user := "tu", pass := "tp" }) 5 1 initialCacheState =
      (Except.ok (prodTransporter 1
          { EMAIL_USER := some "u", EMAIL_PASSWORD := some "p" }),
        { cachedTransporter := some (prodTransporter 1
            { EMAIL_USER := some "u", EMAIL_PASSWORD := some "p" }),
          transporterCreatedAt := 5 }, true) :=
  ⟨((createTransporter_mode_selection {} (Except.ok { user := "tu", pass := "tp" })
      5 1 { user := "tu", pass := "tp" }).2.1 (by decide)).1,
   ((createTransporter_mode_selection
      { EMAIL_USER := some "u", EMAIL_PASSWORD := some "p" }
      (Except.ok { user := "tu", pass := "tp" }) 5 1
      { user := "tu", pass := "tp" }).2.2 (by decide)).1⟩

/-- C6: with valid fields and an obtained transporter, the `mailOptions`
handed to `sendMail` use the given `text` unchanged when it is non-empty and
otherwise derive the plain text as `stripHtmlTags(html)` — the single-pass
pattern removal of `<[^>]*>` with no entity decoding; on the spec's example
the derivation yields "Hello World". -/
theorem sendEmail_text_derivation (env : Env) (acct : Except JsError Account)
    (now fid : Nat) (outcome : DeliveryOutcome) (opts : EmailOptions)
    (st : CacheState) (t : Transporter)
    (hv : (jsFalsy opts.«to» || jsFalsy opts.subject || jsFalsy opts.html) = false)
    (htr : (createTransporter env acct now fid st).1 = Except.ok t) :
    (sendEmail env acct now fid outcome opts st).2.2.sentMail =
      some (mkMailOptions env opts) ∧
    (jsFalsy opts.text = true →
      (mkMailOptions env opts).text = stripHtmlTags (opts.html.getD "")) ∧
    (∀ s : String, opts.text = some s → s ≠ "" →
      (mkMailOptions env opts).text = s) ∧
    stripHtmlTags "<p>Hello <b>World</b></p>" = "Hello World" := by
  refine ⟨?_, ?_, ?_, ?_⟩
  · rcases hct : createTransporter env acct now fid st with ⟨er, st', built⟩
    have her : er = Except.ok t := by
      have := congrArg Prod.fst hct
      simp at this
      rw [← this]
      exact htr
    subst her
    cases hrd : raceDelivery outcome with
    | error e => simp [sendEmail, hv, hct, hrd]
    | ok i => simp [sendEmail, hv, hct, hrd]
  · intro hft
    rcases jsFalsy_eq_true_iff.mp hft with h | h
    · simp [mkMailOptions, jsOr, h]
    · simp [mkMailOptions, jsOr, h]
  · intro s hs hne
    simp [mkMailOptions, jsOr, hs, hne]
  · simp [stripHtmlTags, stripTagsList, findGt]

theorem sendEmail_text_derivation_witness :
    (sendEmail { EMAIL_USER := some "u", EMAIL_PASSWORD := some "p" }
      (Except.ok { user := "tu", pass := "tp" }) 0 1
      (DeliveryOutcome.delivered "m" 0)
      { «to» := some "a@b.c", subject := some "s",
        html := some "<p>Hello <b>World</b></p>" }
      initialCacheState).2.2.sentMail =
      some (mkMailOptions { EMAIL_USER := some "u", EMAIL_PASSWORD := some "p" }
        { «to» := some "a@b.c", subject := some "s",
          html := some "<p>Hello <b>World</b></p>" }) :=
  (sendEmail_text_derivation { EMAIL_USER := some "u", EMAIL_PASSWORD := some "p" }
    (Except.ok { user := "tu", pass := "tp" }) 0 1
    (DeliveryOutcome.delivered "m" 0)
    { «to» := some "a@b.c", subject := some "s",
      html := some "<p>Hello <b>World</b></p>" }
    initialCacheState
    (prodTransporter 1 { EMAIL_USER := some "u", EMAIL_PASSWORD := some "p" })
    (by decide) (by rfl)).1

/-- C7: `sendWorkshopConfirmation` short-circuits with its own validation
failure (same failure shape, cache and effects untouched) when any of the
four fields is missing/empty; with all four present it returns exactly
`sendEmail` applied to `to = email`, `html = template` and no explicit text;
and the `name` value never influences the outcome. -/
theorem sendWorkshopConfirmation_spec (env : Env) (acct : Except JsError Account)
    (now fid : Nat) (outcome : DeliveryOutcome)
    (email name subject template : Option String) (st : CacheState) :
    ((jsFalsy email || jsFalsy name || jsFalsy subject || jsFalsy template) = true →
      sendWorkshopConfirmation env acct now fid outcome email name subject template st =
        (SendResult.err "Missing required parameters for workshop confirmation email" none,
          st, { constructedTransport := false, sentMail := none })) ∧
    ((jsFalsy email || jsFalsy name || jsFalsy subject || jsFalsy template) = false →
      sendWorkshopConfirmation env acct now fid outcome email name subject template st =
        sendEmail env acct now fid outcome
          { «to» := email, subject := subject, html := template, text := none } st) ∧
    (∀ name₁ name₂ : Option String, jsFalsy name₁ = false → jsFalsy name₂ = false →
      sendWorkshopConfirmation env acct now fid outcome email name₁ subject template st =
        sendWorkshopConfirmation env acct now fid outcome email name₂ subject template st) := by
  refine ⟨?_, ?_, ?_⟩
  · intro h
    simp [sendWorkshopConfirmation, h]
  · intro h
    simp [sendWorkshopConfirmation, h]
  · intro n₁ n₂ h₁ h₂
    simp [sendWorkshopConfirmation, h₁, h₂]

theorem sendWorkshopConfirmation_spec_witness :
    sendWorkshopConfirmation {} (Except.ok { user := "tu", pass := "tp" }) 0 1
      (DeliveryOutcome.delivered "m" 0) (some "a@b.c") none (some "s")
      (some "<p>x</p>") initialCacheState =
      (SendResult.err "Missing required parameters for workshop confirmation email" none,
        initialCacheState, { constructedTransport := false, sentMail := none }) ∧
    sendWorkshopConfirmation {} (Except.ok { user := "tu", pass := "tp" }) 0 1
      (DeliveryOutcome.delivered "m" 0) (some "a@b.c") (some "N") (some "s")
      (some "<p>x</p>") initialCacheState =
      sendEmail {} (Except.ok { user := "tu", pass := "tp" }) 0 1
        (DeliveryOutcome.delivered "m" 0)
        { «to» := some "a@b.c", subject := some "s", html := some "<p>x</p>",
          text := none } initialCacheState :=
  ⟨(sendWorkshopConfirmation_spec {} (Except.ok { user := "tu", pass := "tp" }) 0 1
      (DeliveryOutcome.delivered "m" 0) (some "a@b.c") none (some "s")
      (some "<p>x</p>") initialCacheState).1 (by decide),
   (sendWorkshopConfirmation_spec {} (Except.ok { user := "tu", pass := "tp" }) 0 1
      (DeliveryOutcome.delivered "m" 0) (some "a@b.c") (some "N") (some "s")
      (some "<p>x</p>") initialCacheState).2.1 (by decide)⟩

/-- C8 counterexample: the claim requires the returned messageId to be
non-empty, but `sendEmail` returns verbatim whatever identifier the transport
reports; a transport reporting the empty string within the timeout makes
`sendEmail` resolve to `{success:true, messageId: ""}`. -/
theorem sendEmail_empty_messageId :
    (sendEmail { EMAIL_USER := some "u", EMAIL_PASSWORD := some "p" }
      (Except.ok { user := "tu", pass := "tp" }) 0 1
      (DeliveryOutcome.delivered "" 0)
      { «to» := some "a@b.c", subject := some "s", html := some "<p>x</p>" }
      initialCacheState).1 = SendResult.ok "" := by
  decide

/-- C8 (amended): with valid fields, an obtained transporter, and delivery
settling within the 30 s timeout, `sendEmail` returns
`{success:true, messageId}` where messageId is exactly the identifier the
transport reported — in particular non-empty whenever the transport reports a
non-empty identifier. -/
theorem sendEmail_success_messageId (env : Env) (acct : Except JsError Account)
    (now fid : Nat) (opts : EmailOptions) (st : CacheState) (t : Transporter)
    (mid : String) (e : Nat)
    (hv : (jsFalsy opts.«to» || jsFalsy opts.subject || jsFalsy opts.html) = false)
    (htr : (createTransporter env acct now fid st).1 = Except.ok t)
    (ht : e < EMAIL_TIMEOUT) :
    (sendEmail env acct now fid (DeliveryOutcome.delivered mid e) opts st).1 =
      SendResult.ok mid := by
  rcases hct : createTransporter env acct now fid st with ⟨er, st', built⟩
  have her : er = Except.ok t := by
    have := congrArg Prod.fst hct
    simp at this
    rw [← this]
    exact htr
  subst her
  simp [sendEmail, hv, hct, raceDelivery, ht]

theorem sendEmail_success_messageId_witness :
    (sendEmail { EMAIL_USER := some "u", EMAIL_PASSWORD := some "p" }
      (Except.ok { user := "tu", pass := "tp" }) 0 1
      (DeliveryOutcome.delivered "msg-1" 100)
      { «to» := some "a@b.c", subject := some "s", html := some "<p>x</p>" }
      initialCacheState).1 = SendResult.ok "msg-1" :=
  sendEmail_success_messageId { EMAIL_USER := some "u", EMAIL_PASSWORD := some "p" }
    (Except.ok { user := "tu", pass := "tp" }) 0 1
    { «to» := some "a@b.c", subject := some "s", html := some "<p>x</p>" }
    initialCacheState
    (prodTransporter 1 { EMAIL_USER := some "u", EMAIL_PASSWORD := some "p" })
    "msg-1" 100 (by decide) (by rfl) (by decide)

/-- C9: `stripHtmlTags` is idempotent — one global removal of substrings
matching `<[^>]*>` never leaves or creates a substring that would match on a
second pass, so stripping an already-stripped string changes nothing. -/
theorem stripHtmlTags_idempotent (s : String) :
    stripHtmlTags (stripHtmlTags s) = stripHtmlTags s := by
  cases s with
  | mk data =>
      show String.mk (stripTagsList (stripTagsList data)) =
        String.mk (stripTagsList data)
      rw [stripTagsList_idem]

end Websters
